import Mathlib

/-!
Shallow embedding of the risk aggregation and reconciliation engine of the
`damu_sb` repository (files `src/sb/kompra.py` and `src/sb/main.py`), together
with theorems settling the specification claims about it.

Conventions of the embedding:
* Python `int` years are `Int`; `abs` is `Int.natAbs` coerced back where the
  source compares against an `int` bound.
* The process-wide reference date (`os.environ["today"]`, read inside
  `Cases.has_cases`, and the module-level `today` read by `main`) is threaded
  as an explicit `todayYear : Int` parameter.
* A Python `dict[str, bool]` is an insertion-ordered association list
  `List (String × Bool)`; `k in d`, `d.pop(k, None)` and `d[k] = v` are
  embedded by `Risks.hasKey`, `Risks.popKey` and `Risks.setFlag`, which
  preserve Python dict ordering semantics.
* Network fetches are embedded as oracles `Nat → α` giving the result of the
  n-th request; loops with no bound in the source take an explicit fuel.
-/

/-- Embeds `Status(StrEnum)` from `kompra.py`: YES / NO / SYNC / INIT. -/
inductive Status where
  | YES : Status
  | NO : Status
  | SYNC : Status
  | INIT : Status
deriving DecidableEq, Repr

/-- The `StrEnum` string value of each `Status` member. -/
def Status.value : Status → String
  | .YES => "YES"
  | .NO => "NO"
  | .SYNC => "SYNC"
  | .INIT => "INIT"

/-- Python truthiness of a `Status` member: a `StrEnum` member is truthy iff
its underlying string is non-empty. -/
def Status.toBool (s : Status) : Bool :=
  s.value ≠ ""

/-- Embeds `CaseType(IntEnum)` from `kompra.py`: CIVIL = 1, CRIMINAL = 2, ADMIN = 3. -/
inductive CaseType where
  | CIVIL : CaseType
  | CRIMINAL : CaseType
  | ADMIN : CaseType
deriving DecidableEq, Repr

/-- The `IntEnum` value of each `CaseType` member; `case.type_id == 3` in the
source compares through this value. -/
def CaseType.val : CaseType → Int
  | .CIVIL => 1
  | .CRIMINAL => 2
  | .ADMIN => 3

/-- Embeds `Case` (pydantic model) from `kompra.py`: one litigation record.
`date` is the optional parsed datetime (kept abstract as its ISO string);
`year` is always present. -/
structure Case where
  category : String
  number : String
  part : String
  type_id : CaseType
  date : Option String
  id : Int
  organ : String
  plaintiff : Option String
  defendant : Option String
  role : Option String
  result : String
  status : Option String
  year : Int
deriving DecidableEq, Repr

/-- The `Cases` container holds `self._cases : list[Case]`; we embed the
store as that list directly (iteration order is list order). -/
abbrev Cases := List Case

namespace Cases

/-- Embeds `Cases.has_cases(case_type, max_delta=3)` from `kompra.py`:
for non-CRIMINAL kinds, any case of the kind with
`abs(today.year - case.year) <= max_delta`; for CRIMINAL, any case of the
kind regardless of year.  The environment read of `today` is the explicit
`todayYear` parameter. -/
def has_cases (self : Cases) (todayYear : Int) (case_type : CaseType)
    (max_delta : Int := 3) : Bool :=
  if case_type ≠ CaseType.CRIMINAL then
    (self.filter fun c => c.type_id == case_type).any
      fun c => decide (((todayYear - c.year).natAbs : Int) ≤ max_delta)
  else
    self.any fun c => c.type_id == case_type

/-- Embeds `Cases.remove_cases(case_type)` from `kompra.py`:
`self._cases = [case for case in self if case.type_id != case_type]`. -/
def remove_cases (self : Cases) (case_type : CaseType) : Cases :=
  self.filter fun c => c.type_id != case_type

end Cases

/-- A Python `dict[str, bool]` of risk flags, as an insertion-ordered
association list. -/
abbrev Risks := List (String × Bool)

namespace Risks

/-- Embeds `key in risks` on a Python dict: key membership. -/
def hasKey (self : Risks) (k : String) : Bool :=
  self.any fun p => p.1 == k

/-- Embeds `risks.pop(key, None)`: drop the entry with the key, keep the rest in
order. -/
def popKey (self : Risks) (k : String) : Risks :=
  self.filter fun p => p.1 != k

/-- Embeds `risks[key] = v`: overwrite in place when the key exists, else append
(Python dicts keep insertion order). -/
def setFlag (self : Risks) (k : String) (v : Bool) : Risks :=
  if self.hasKey k then
    self.map fun p => if p.1 == k then (k, v) else p
  else
    self ++ [(k, v)]

/-- Lookup of a key in the flag dict. -/
def getVal (self : Risks) (k : String) : Option Bool :=
  (self.find? fun p => p.1 == k).map Prod.snd

end Risks

/-- Risk-flag key "Административные правонарушения" (administrative
offenses). -/
def adminKey : String := "Административные правонарушения"

/-- Risk-flag key "Уголовные разбирательства" (criminal proceedings). -/
def criminalKey : String := "Уголовные разбирательства"

/-- Risk-flag key "Гражданские разбирательства" (civil proceedings). -/
def civilKey : String := "Гражданские разбирательства"

/-- The age test the reconciliation code in `main.py` applies inline:
`(today.year - case.year) <= 3` — one-sided, no absolute value. -/
def engineInWindow (todayYear : Int) (c : Case) : Bool :=
  decide (todayYear - c.year ≤ 3)

/-- Step 1 of the reconciliation in `main.py` (lines 459-472): if the
"administrative offenses" flag is present and no ADMINISTRATIVE case passes
the inline 3-year test, pop the flag; otherwise leave the dict alone.  The
case store is never modified. -/
def reconcileAdminStep (todayYear : Int) (risks : Risks) (content : Cases) :
    Risks :=
  if risks.hasKey adminKey then
    if (content.filter fun c => c.type_id == CaseType.ADMIN).any
        (engineInWindow todayYear) then
      risks
    else
      risks.popKey adminKey
  else
    risks

/-- Step 2 of the reconciliation in `main.py` (lines 474-477): if any case
has `type_id == 2` (CRIMINAL), force `risks["Уголовные разбирательства"] =
True`; no else branch. -/
def reconcileCriminalStep (risks : Risks) (content : Cases) : Risks :=
  if content.any fun c => c.type_id == CaseType.CRIMINAL then
    risks.setFlag criminalKey true
  else
    risks

/-- Step 3 of the reconciliation in `main.py` (lines 479-488): if any CIVIL
case passes the inline 3-year test, force
`risks["Гражданские разбирательства"] = True`; the else branch only logs. -/
def reconcileCivilStep (todayYear : Int) (risks : Risks) (content : Cases) :
    Risks :=
  if (content.filter fun c => c.type_id == CaseType.CIVIL).any
      (engineInWindow todayYear) then
    risks.setFlag civilKey true
  else
    risks

/-- The whole reconciliation block of `main.py` (lines 459-488) over one
applicant: the three steps in source order.  The source mutates `risks` in
place and never touches the case store; the result pair returns both. -/
def reconcile (todayYear : Int) (risks : Risks) (content : Cases) :
    Risks × Cases :=
  let r1 := reconcileAdminStep todayYear risks content
  let r2 := reconcileCriminalStep r1 content
  let r3 := reconcileCivilStep todayYear r2 content
  (r3, content)

/-- The gate `if kompra.get_case_status(bin):` in `main.py` line 455:
the returned `Status` is used in boolean context, i.e. through Python
truthiness of the `StrEnum` member. -/
def caseHistoryFetchGate (s : Status) : Bool :=
  Status.toBool s

/-- Outcome of one `_get_risks` / `_get_risks_api` call inside
`Kompra.get_risks` (`kompra.py` lines 789-814): success with a flag dict,
the caught `ServiceNotAvailableError`, or any other exception (uncaught by
the `except` clause, so it propagates). -/
inductive RiskFetchOutcome where
  | ok : Risks → RiskFetchOutcome
  | serviceUnavailable : RiskFetchOutcome
  | fatal : RiskFetchOutcome
deriving DecidableEq, Repr

/-- Errors `Kompra.get_risks` can surface: the `ValueError()` raised after
the retry loop exhausts, or a propagated exception from the fetch itself. -/
inductive GetRisksError where
  | valueError : GetRisksError
  | propagated : GetRisksError
deriving DecidableEq, Repr

/-- The `for _ in range(max_retries)` loop of `Kompra.get_risks`: attempt
`n` more fetches starting at request index `i`; a success returns at once,
`ServiceNotAvailableError` sleeps and continues, anything else propagates.
After the loop `risks` is still `None`, so `if not risks: raise ValueError()`
always fires. -/
def getRisksLoop (fetch : Nat → RiskFetchOutcome) :
    Nat → Nat → Except GetRisksError Risks
  | 0, _ => .error .valueError
  | n + 1, i =>
    match fetch i with
    | .ok r => .ok r
    | .serviceUnavailable => getRisksLoop fetch n (i + 1)
    | .fatal => .error .propagated

/-- Embeds `Kompra.get_risks(type, iin, max_retries=5, time_between=10)` over an
oracle giving the outcome of the n-th fetch attempt. -/
def get_risks (fetch : Nat → RiskFetchOutcome) (max_retries : Nat := 5) :
    Except GetRisksError Risks :=
  getRisksLoop fetch max_retries 0

/-- Embeds `RawSummary.Record.Tag` from `kompra.py`: a tag with an optional
recommendation. -/
structure Tag where
  tag : String
  recom : Option String
deriving DecidableEq, Repr

/-- Embeds `RawSummary.Record` from `kompra.py`: a bucket with a sync status and a
tag list (the status string is validated into `Status`). -/
structure SummaryRecord where
  status : Status
  data : List Tag
deriving DecidableEq, Repr

/-- Embeds `RawSummary` from `kompra.py`: risk / attention / positive buckets. -/
structure RawSummary where
  risk : SummaryRecord
  attention : SummaryRecord
  positive : SummaryRecord
deriving DecidableEq, Repr

/-- Character-list substring test: does `pat` occur contiguously in `l`? -/
def charsContain (pat : List Char) : List Char → Bool
  | [] => pat.isEmpty
  | c :: rest => pat.isPrefixOf (c :: rest) || charsContain pat rest

/-- Python `needle in haystack` on strings: contiguous substring test. -/
def strContains (haystack needle : String) : Bool :=
  charsContain needle.data haystack.data

/-- The degree-of-risk qualifier substring excluded by
`Kompra.get_reliability_summary`. -/
def degreeQualifier : String := " степень риска"

/-- The tag filter of `get_reliability_summary`:
`" степень риска" not in tag.tag`. -/
def tagSurvives (t : Tag) : Bool :=
  !(strContains t.tag degreeQualifier)

/-- The fetch loop of `Kompra.get_reliability_summary` (`kompra.py` lines
968-1021).  `k` is the zero-based index of the request about to be issued
(so `current_retry = k + 1` after it); `remaining` is `5 - 1 - k`, making
`remaining = 0` exactly the `current_retry >= 5` break.  The loop breaks
when the risk bucket status equals `"YES"` or the retry budget is spent,
and otherwise sleeps and refetches.  Returns the last fetched summary and
the number of requests issued. -/
def reliabilityLoop (fetch : Nat → RawSummary) :
    Nat → Nat → RawSummary × Nat
  | k, 0 => (fetch k, k + 1)
  | k, remaining + 1 =>
    let s := fetch k
    if s.risk.status = Status.YES then
      (s, k + 1)
    else
      reliabilityLoop fetch (k + 1) remaining

/-- Embeds `Kompra.get_reliability_summary(iin)` over an oracle giving the summary
returned by the n-th request: run the poll loop (at most 5 requests), then
build `set(risk tags surviving the filter + attention tags surviving the
filter)`.  We return the de-duplicated tag list together with the number of
requests issued. -/
def get_reliability_summary (fetch : Nat → RawSummary) :
    List String × Nat :=
  let res := reliabilityLoop fetch 0 4
  ((((res.1.risk.data.filter tagSurvives).map Tag.tag) ++
      ((res.1.attention.data.filter tagSurvives).map Tag.tag)).dedup, res.2)

/-- Observable requests of `Kompra.start_schema_generation` (`kompra.py`
lines 867-894): the generation trigger (`GET .../relations/{iin}/start`) or
one status poll (`Kompra.get_relation_status`, `GET .../relations/{iin}/status`)
together with the status that poll returned. -/
inductive RelEvent where
  | trigger : RelEvent
  | poll : Status → RelEvent
deriving DecidableEq, Repr

/-- The `while status != Status.YES` loop of `start_schema_generation`:
each iteration issues exactly one status poll (never a trigger) and sleeps.
`i` indexes the poll oracle; `fuel` bounds the observation since the source
loop has no timeout. -/
def relationPollLoop (poll : Nat → Status) :
    Nat → Nat → Status → List RelEvent
  | 0, _, _ => []
  | fuel + 1, i, cur =>
    if cur = Status.YES then
      []
    else
      RelEvent.poll (poll i) :: relationPollLoop poll fuel (i + 1) (poll i)

/-- The request trace of `Kompra.start_schema_generation`: one trigger
request (whose response carries `initial`), then the poll loop until the
status is YES (or fuel runs out). -/
def start_schema_generation_trace (poll : Nat → Status) (initial : Status)
    (fuel : Nat) : List RelEvent :=
  RelEvent.trigger :: relationPollLoop poll fuel 0 initial

/-- Checks that in an event list the loop stops right at the first YES
poll: no trigger occurs at all, and nothing follows a YES poll. -/
def stopsAtFirstYes : List RelEvent → Bool
  | [] => true
  | RelEvent.trigger :: _ => false
  | RelEvent.poll s :: rest =>
    if s = Status.YES then rest.isEmpty else stopsAtFirstYes rest

/-! ## Concrete sample data used by witnesses and counterexamples -/

/-- Builds a sample `Case` of the given kind and year; the remaining fields
take neutral values (they are never consulted by the operations above). -/
def mkCase (t : CaseType) (y : Int) : Case :=
  { category := "cat", number := "no", part := "part", type_id := t,
    date := none, id := 0, organ := "organ", plaintiff := none,
    defendant := none, role := none, result := "res", status := none,
    year := y }

/-- A CRIMINAL case from far in the past. -/
def exCriminalCase : Case := mkCase CaseType.CRIMINAL 1995

/-- A CIVIL case two years before the sample reference year 2024. -/
def exCivilCase2022 : Case := mkCase CaseType.CIVIL 2022

/-- An ADMINISTRATIVE case five years before the sample reference year. -/
def exAdminCaseOld : Case := mkCase CaseType.ADMIN 2019

/-- A CIVIL case dated four years after the sample reference year. -/
def exFutureCivil : Case := mkCase CaseType.CIVIL 2028

/-- A signal set holding only the "administrative offenses" flag. -/
def exAdminRisks : Risks := [(adminKey, true)]

/-! ## Theorems for the claims -/

/-- C3. Criminal permanence of `has_cases`: a store with at least one
CRIMINAL case (of any year) makes `has_cases(CRIMINAL)` true for every
reference year; a store with no CRIMINAL case makes it false. -/
theorem criminal_permanence (store : Cases) (todayYear : Int) :
    ((∃ c ∈ store, c.type_id = CaseType.CRIMINAL) →
      Cases.has_cases store todayYear CaseType.CRIMINAL = true)
    ∧ ((∀ c ∈ store, c.type_id ≠ CaseType.CRIMINAL) →
      Cases.has_cases store todayYear CaseType.CRIMINAL = false) := by
  constructor
  · rintro ⟨c, hc, ht⟩
    simp only [Cases.has_cases, ne_eq, not_true_eq_false, if_false,
      List.any_eq_true, beq_iff_eq]
    exact ⟨c, hc, ht⟩
  · intro h
    simp only [Cases.has_cases, ne_eq, not_true_eq_false, if_false,
      List.any_eq_false, beq_iff_eq]
    exact h

/-- Witness for C3 at a concrete store and reference year. -/
theorem criminal_permanence_witness :
    Cases.has_cases [exCriminalCase] 2024 CaseType.CRIMINAL = true :=
  (criminal_permanence [exCriminalCase] 2024).1
    ⟨exCriminalCase, by simp, by decide⟩

/-- C4. Windowed decay of `has_cases`: for CIVIL and ADMINISTRATIVE kinds,
`has_cases(kind, max_delta)` at reference year `todayYear` is true iff some
stored case of that kind satisfies `|todayYear - year| <= max_delta`. -/
theorem windowed_decay (store : Cases) (todayYear max_delta : Int)
    (kind : CaseType)
    (hk : kind = CaseType.CIVIL ∨ kind = CaseType.ADMIN) :
    Cases.has_cases store todayYear kind max_delta = true ↔
      ∃ c ∈ store, c.type_id = kind ∧
        ((todayYear - c.year).natAbs : Int) ≤ max_delta := by
  have hne : kind ≠ CaseType.CRIMINAL := by
    rcases hk with h | h <;> simp [h]
  simp only [Cases.has_cases, hne, ne_eq, not_false_eq_true, if_true,
    List.any_eq_true, List.mem_filter, beq_iff_eq, decide_eq_true_eq]
  constructor
  · rintro ⟨c, ⟨hc, ht⟩, hw⟩
    exact ⟨c, hc, ht, hw⟩
  · rintro ⟨c, hc, ht, hw⟩
    exact ⟨c, ⟨hc, ht⟩, hw⟩

/-- Witness for C4 at a concrete one-case CIVIL store within the window. -/
theorem windowed_decay_witness :
    Cases.has_cases [exCivilCase2022] 2024 CaseType.CIVIL 3 = true :=
  (windowed_decay [exCivilCase2022] 2024 3 CaseType.CIVIL (Or.inl rfl)).mpr
    ⟨exCivilCase2022, by simp, by decide, by decide⟩

/-- C5. Eviction correctness of `remove_cases`: afterwards no case of the
removed kind remains; the survivors are exactly the cases of other kinds,
kept as a sublist of the original store (original relative order). -/
theorem eviction_correctness (store : Cases) (kind : CaseType) :
    (∀ c ∈ Cases.remove_cases store kind, c.type_id ≠ kind)
    ∧ List.Sublist (Cases.remove_cases store kind) store
    ∧ (∀ c, c ∈ Cases.remove_cases store kind ↔
        (c ∈ store ∧ c.type_id ≠ kind)) := by
  refine ⟨?_, ?_, ?_⟩
  · intro c hc
    simp only [Cases.remove_cases, List.mem_filter, bne_iff_ne, ne_eq] at hc
    exact hc.2
  · exact List.filter_sublist store
  · intro c
    simp only [Cases.remove_cases, List.mem_filter, bne_iff_ne, ne_eq]

/-- Witness for C5: in a concrete two-case store, after removing the ADMIN
kind the CIVIL case is still present. -/
theorem eviction_correctness_witness :
    exCivilCase2022 ∈
      Cases.remove_cases [exCriminalCase, exCivilCase2022] CaseType.ADMIN :=
  ((eviction_correctness [exCriminalCase, exCivilCase2022]
      CaseType.ADMIN).2.2 exCivilCase2022).mpr ⟨by decide, by decide⟩

/-! ## Helper lemmas about the flag dict -/

/-- Unfolding lookup over a cons cell. -/
theorem Risks.getVal_cons (q : String × Bool) (l : Risks) (k : String) :
    Risks.getVal (q :: l) k =
      if q.1 == k then some q.2 else Risks.getVal l k := by
  by_cases hq : (q.1 == k) = true
  · simp [Risks.getVal, List.find?_cons_of_pos _ hq, hq]
  · simp [Risks.getVal, List.find?_cons_of_neg _ hq, hq]

/-- Unfolding key membership over a cons cell. -/
theorem Risks.hasKey_cons (q : String × Bool) (l : Risks) (k : String) :
    Risks.hasKey (q :: l) k = (q.1 == k || Risks.hasKey l k) := by
  simp [Risks.hasKey]

/-- Overwriting the entries keyed `k` yields `v` on lookup of `k`, provided
the key is present. -/
theorem Risks.getVal_mapReplace_self (k : String) (v : Bool) (r : Risks)
    (h : Risks.hasKey r k = true) :
    Risks.getVal (r.map fun p => if p.1 == k then (k, v) else p) k =
      some v := by
  induction r with
  | nil => simp [Risks.hasKey] at h
  | cons p r ih =>
    rw [List.map_cons]
    by_cases hp : (p.1 == k) = true
    · rw [if_pos hp, Risks.getVal_cons]
      simp
    · rw [if_neg hp, Risks.getVal_cons, if_neg hp]
      have hr : Risks.hasKey r k = true := by
        have := (Risks.hasKey_cons p r k) ▸ h
        simpa [hp] using this
      exact ih hr

/-- Overwriting the entries keyed `k` does not change lookups of `k' ≠ k`. -/
theorem Risks.getVal_mapReplace_ne (k k' : String) (v : Bool) (r : Risks)
    (hne : k' ≠ k) :
    Risks.getVal (r.map fun p => if p.1 == k then (k, v) else p) k' =
      Risks.getVal r k' := by
  induction r with
  | nil => simp
  | cons p r ih =>
    rw [List.map_cons]
    by_cases hp : (p.1 == k) = true
    · have hpk : p.1 = k := by simpa using hp
      have h1 : (k == k') = false := by
        simpa using fun he => hne he.symm
      have h2 : (p.1 == k') = false := by
        simpa [hpk] using fun he => hne he.symm
      rw [if_pos hp, Risks.getVal_cons, Risks.getVal_cons, h1, h2]
      simpa using ih
    · rw [if_neg hp, Risks.getVal_cons, Risks.getVal_cons]
      by_cases hp2 : (p.1 == k') = true
      · simp [hp2]
      · simp only [hp2, if_false]
        exact ih

/-- Appending a fresh `(k, v)` entry yields `v` on lookup of `k`, provided
the key was absent. -/
theorem Risks.getVal_appendNew_self (k : String) (v : Bool) (r : Risks)
    (h : Risks.hasKey r k = false) :
    Risks.getVal (r ++ [(k, v)]) k = some v := by
  induction r with
  | nil => simp [Risks.getVal_cons, Risks.getVal]
  | cons p r ih =>
    rw [List.cons_append, Risks.getVal_cons]
    have hcons := (Risks.hasKey_cons p r k) ▸ h
    have hp : (p.1 == k) = false := by
      rcases Bool.or_eq_false_iff.mp hcons with ⟨h1, _⟩
      exact h1
    have hr : Risks.hasKey r k = false := by
      rcases Bool.or_eq_false_iff.mp hcons with ⟨_, h2⟩
      exact h2
    rw [hp]
    simpa using ih hr

/-- Appending a `(k, v)` entry does not change lookups of `k' ≠ k`. -/
theorem Risks.getVal_appendNew_ne (k k' : String) (v : Bool) (r : Risks)
    (hne : k' ≠ k) :
    Risks.getVal (r ++ [(k, v)]) k' = Risks.getVal r k' := by
  induction r with
  | nil =>
    have h1 : (k == k') = false := by
      simpa using fun he => hne he.symm
    simp [Risks.getVal_cons, Risks.getVal, h1]
  | cons p r ih =>
    rw [List.cons_append, Risks.getVal_cons, Risks.getVal_cons]
    by_cases hp : (p.1 == k') = true
    · simp [hp]
    · simp only [hp, if_false]
      exact ih

/-- After `risks[k] = v`, looking up `k` yields `v`. -/
theorem Risks.getVal_setFlag_self (r : Risks) (k : String) (v : Bool) :
    Risks.getVal (Risks.setFlag r k v) k = some v := by
  unfold Risks.setFlag
  by_cases h : Risks.hasKey r k
  · rw [if_pos h]
    exact Risks.getVal_mapReplace_self k v r h
  · rw [if_neg h]
    exact Risks.getVal_appendNew_self k v r (by simpa using h)

/-- Setting `risks[k] = v` leaves lookups of other keys unchanged. -/
theorem Risks.getVal_setFlag_ne (r : Risks) (k k' : String) (v : Bool)
    (hne : k' ≠ k) :
    Risks.getVal (Risks.setFlag r k v) k' = Risks.getVal r k' := by
  unfold Risks.setFlag
  by_cases h : Risks.hasKey r k
  · rw [if_pos h]
    exact Risks.getVal_mapReplace_ne k k' v r hne
  · rw [if_neg h]
    exact Risks.getVal_appendNew_ne k k' v r hne

/-- C1 counterexample: with the "administrative offenses" flag present and a
single ADMINISTRATIVE case five years old (outside every reading of the
3-year window), the reconciliation removes the flag but does NOT evict the
ADMINISTRATIVE case from the store, contradicting the eviction part of
the claim. -/
theorem admin_reconcile_counterexample :
    Risks.hasKey exAdminRisks adminKey = true
    ∧ ((([exAdminCaseOld] : Cases).filter
        fun c => c.type_id == CaseType.ADMIN).any (engineInWindow 2024))
        = false
    ∧ Risks.hasKey (reconcile 2024 exAdminRisks [exAdminCaseOld]).1 adminKey
        = false
    ∧ ¬ (∀ c ∈ (reconcile 2024 exAdminRisks [exAdminCaseOld]).2,
        c.type_id ≠ CaseType.ADMIN) := by
  decide

/-- C1 (amended). Reconciliation step 1: when the "administrative offenses"
flag is present, if some ADMINISTRATIVE case passes the one-sided 3-year
test of the engine the signal set is kept unchanged, else the flag is popped; the
case store is left unchanged in both branches (no eviction happens). -/
theorem admin_reconcile_amended (todayYear : Int) (risks : Risks)
    (store : Cases) (h : Risks.hasKey risks adminKey = true) :
    (((store.filter fun c => c.type_id == CaseType.ADMIN).any
        (engineInWindow todayYear) = true →
      reconcileAdminStep todayYear risks store = risks)
    ∧ ((store.filter fun c => c.type_id == CaseType.ADMIN).any
        (engineInWindow todayYear) = false →
      reconcileAdminStep todayYear risks store =
        Risks.popKey risks adminKey))
    ∧ (reconcile todayYear risks store).2 = store := by
  refine ⟨⟨?_, ?_⟩, rfl⟩
  · intro hw
    unfold reconcileAdminStep
    rw [if_pos h, if_pos hw]
  · intro hw
    unfold reconcileAdminStep
    rw [if_pos h, if_neg (by simp [hw])]

/-- Witness for the amended C1 at a concrete stale-case input. -/
theorem admin_reconcile_amended_witness :
    reconcileAdminStep 2024 exAdminRisks [exAdminCaseOld] =
      Risks.popKey exAdminRisks adminKey :=
  ((admin_reconcile_amended 2024 exAdminRisks [exAdminCaseOld]
      (by decide)).1.2) (by decide)

/-- C2. Derived criminal flag: any CRIMINAL case in the store forces the
"criminal proceedings" flag to true in the final signal set; with no
CRIMINAL case the final store holds no CRIMINAL case; from an empty signal
set and a store of exactly one CRIMINAL case the result is exactly
`{"Уголовные разбирательства": true}` with the store untouched. -/
theorem criminal_flag_forcing (todayYear : Int) (risks : Risks)
    (store : Cases) (c : Case) :
    ((∃ d ∈ store, d.type_id = CaseType.CRIMINAL) →
      Risks.getVal (reconcile todayYear risks store).1 criminalKey
        = some true)
    ∧ ((∀ d ∈ store, d.type_id ≠ CaseType.CRIMINAL) →
      ∀ d ∈ (reconcile todayYear risks store).2,
        d.type_id ≠ CaseType.CRIMINAL)
    ∧ (c.type_id = CaseType.CRIMINAL →
      reconcile todayYear [] [c] = ([(criminalKey, true)], [c])) := by
  refine ⟨?_, ?_, ?_⟩
  · rintro ⟨d, hd, ht⟩
    have hany : (store.any fun e => e.type_id == CaseType.CRIMINAL) = true :=
      List.any_eq_true.mpr ⟨d, hd, by simp [ht]⟩
    simp only [reconcile]
    have h2 : reconcileCriminalStep
        (reconcileAdminStep todayYear risks store) store =
        Risks.setFlag (reconcileAdminStep todayYear risks store)
          criminalKey true := by
      unfold reconcileCriminalStep
      rw [if_pos hany]
    rw [h2]
    by_cases hc : ((store.filter fun e => e.type_id == CaseType.CIVIL).any
        (engineInWindow todayYear)) = true
    · unfold reconcileCivilStep
      rw [if_pos hc]
      rw [Risks.getVal_setFlag_ne _ _ _ _ (by decide)]
      exact Risks.getVal_setFlag_self _ _ _
    · unfold reconcileCivilStep
      rw [if_neg hc]
      exact Risks.getVal_setFlag_self _ _ _
  · intro h
    simp only [reconcile]
    exact h
  · intro ht
    simp [reconcile, reconcileAdminStep, reconcileCriminalStep,
      reconcileCivilStep, Risks.hasKey, Risks.setFlag, ht]

/-- Witness for C2: a one-CRIMINAL-case store and empty signal set. -/
theorem criminal_flag_forcing_witness :
    reconcile 2024 [] [exCriminalCase] =
      ([(criminalKey, true)], [exCriminalCase]) :=
  (criminal_flag_forcing 2024 [] [exCriminalCase] exCriminalCase).2.2
    (by decide)

/-- C6. The gate `if kompra.get_case_status(bin):` passes for EVERY status:
a `StrEnum` member is a non-empty string, hence always truthy, so the
case-history fetch is attempted for NO, SYNC and INIT just as for YES —
the gate never blocks, contrary to the documented `Status.YES` gating. -/
theorem caseStatus_gate_always_passes :
    caseHistoryFetchGate Status.NO = true
    ∧ caseHistoryFetchGate Status.SYNC = true
    ∧ caseHistoryFetchGate Status.INIT = true
    ∧ caseHistoryFetchGate Status.YES = true := by
  decide

/-- C10. One-sided engine window: the inline age test of the reconciliation,
`today.year - case.year <= 3` accepts every case dated at or after the
reference year; consequently a future-dated CIVIL case forces the civil
flag; and this differs from `Cases.has_cases`, whose absolute-difference
window rejects a case 4 years in the future. -/
theorem one_sided_engine_window (todayYear : Int) (c : Case) (r : Risks)
    (h : todayYear ≤ c.year) :
    (engineInWindow todayYear c = true)
    ∧ (c.type_id = CaseType.CIVIL →
        Risks.getVal (reconcileCivilStep todayYear r [c]) civilKey
          = some true)
    ∧ (engineInWindow 2024 exFutureCivil = true
        ∧ Cases.has_cases [exFutureCivil] 2024 CaseType.CIVIL 3 = false) := by
  refine ⟨?_, ?_, by decide, by decide⟩
  · unfold engineInWindow
    simp only [decide_eq_true_eq]
    omega
  · intro ht
    unfold reconcileCivilStep
    have hfilter : (([c] : Cases).filter
        fun d => d.type_id == CaseType.CIVIL) = [c] := by
      simp [ht]
    rw [hfilter]
    have hw : engineInWindow todayYear c = true := by
      unfold engineInWindow
      simp only [decide_eq_true_eq]
      omega
    have hany : (([c] : Cases).any (engineInWindow todayYear)) = true := by
      simp [hw]
    rw [if_pos hany]
    exact Risks.getVal_setFlag_self _ _ _

/-- Witness for C10 at a concrete future-dated case. -/
theorem one_sided_engine_window_witness :
    engineInWindow 2020 (mkCase CaseType.ADMIN 2030) = true :=
  (one_sided_engine_window 2020 (mkCase CaseType.ADMIN 2030) []
    (by decide)).1

/-- A poll oracle whose first status poll answers NO and all later polls
answer YES. -/
def exPollSeq : Nat → Status :=
  fun i => if i = 0 then Status.NO else Status.YES

/-- C7 counterexample: with the trigger response INIT and the first status
poll answering NO, the complete request trace of
`start_schema_generation` is trigger, poll NO, poll YES — the NO poll (and
the INIT trigger response) caused NO re-issue of the generation trigger,
so the trace holds exactly one trigger, contradicting the claimed
re-trigger on NO/INIT. -/
theorem schema_generation_counterexample :
    start_schema_generation_trace exPollSeq Status.INIT 10 =
      [RelEvent.trigger, RelEvent.poll Status.NO, RelEvent.poll Status.YES]
    ∧ List.count RelEvent.trigger
        (start_schema_generation_trace exPollSeq Status.INIT 10) = 1 := by
  decide

/-- The poll loop of `start_schema_generation` never issues a trigger. -/
theorem relationPollLoop_no_trigger (poll : Nat → Status) :
    ∀ fuel i cur, RelEvent.trigger ∉ relationPollLoop poll fuel i cur := by
  intro fuel
  induction fuel with
  | zero => intro i cur; simp [relationPollLoop]
  | succ n ih =>
    intro i cur
    by_cases hy : cur = Status.YES
    · simp [relationPollLoop, hy]
    · simp only [relationPollLoop, hy, if_false, List.mem_cons]
      rintro (h | h)
      · cases h
      · exact ih (i + 1) (poll i) h

/-- The poll loop is empty as soon as the current status is YES. -/
theorem relationPollLoop_yes_nil (poll : Nat → Status) (fuel i : Nat) :
    relationPollLoop poll fuel i Status.YES = [] := by
  cases fuel <;> simp [relationPollLoop]

/-- Every poll-loop trace stops right at its first YES poll. -/
theorem stopsAtFirstYes_relationPollLoop (poll : Nat → Status) :
    ∀ fuel i cur,
      stopsAtFirstYes (relationPollLoop poll fuel i cur) = true := by
  intro fuel
  induction fuel with
  | zero => intro i cur; rfl
  | succ n ih =>
    intro i cur
    by_cases hy : cur = Status.YES
    · simp [relationPollLoop, hy, stopsAtFirstYes]
    · simp only [relationPollLoop, hy, if_false]
      by_cases hp : poll i = Status.YES
      · simp [stopsAtFirstYes, hp, relationPollLoop_yes_nil poll n (i + 1)]
      · simpa [stopsAtFirstYes, hp] using ih (i + 1) (poll i)

/-- C7 (amended). Poll-until-ready protocol as the code implements it: the
generation trigger is issued exactly once per call (no status ever causes a
re-trigger); the controller then polls the status endpoint in a
fixed-interval loop that stops right at the first YES poll, and with fuel
left the loop is finished exactly when the status has become YES. -/
theorem schema_generation_amended (poll : Nat → Status) (initial : Status)
    (fuel : Nat) :
    (List.count RelEvent.trigger
        (start_schema_generation_trace poll initial fuel) = 1)
    ∧ stopsAtFirstYes (relationPollLoop poll fuel 0 initial) = true
    ∧ (∀ i cur,
        (relationPollLoop poll (fuel + 1) i cur = [] ↔ cur = Status.YES)) := by
  refine ⟨?_, stopsAtFirstYes_relationPollLoop poll fuel 0 initial, ?_⟩
  · unfold start_schema_generation_trace
    rw [List.count_cons_self]
    rw [List.count_eq_zero.mpr (relationPollLoop_no_trigger poll fuel 0 initial)]
  · intro i cur
    by_cases hy : cur = Status.YES
    · simp [relationPollLoop, hy]
    · simp [relationPollLoop, hy]

/-- When every attempt in the budget fails with the designated
service-unavailable error, the retry loop of `get_risks` exhausts and
raises its `ValueError`. -/
theorem getRisksLoop_all_unavailable (fetch : Nat → RiskFetchOutcome) :
    ∀ n i,
      (∀ j, j < n → fetch (i + j) = RiskFetchOutcome.serviceUnavailable) →
      getRisksLoop fetch n i = Except.error GetRisksError.valueError := by
  intro n
  induction n with
  | zero => intro i _; rfl
  | succ n ih =>
    intro i h
    have h0 : fetch i = RiskFetchOutcome.serviceUnavailable := by
      simpa using h 0 (Nat.succ_pos n)
    simp only [getRisksLoop, h0]
    apply ih
    intro j hj
    have hh := h (j + 1) (Nat.succ_lt_succ hj)
    rwa [show i + 1 + j = i + (j + 1) by omega]

/-- The retry loop of `get_risks` returns the result of the first
successful attempt. -/
theorem getRisksLoop_first_ok (fetch : Nat → RiskFetchOutcome) (r : Risks) :
    ∀ n i k, k < n → fetch (i + k) = RiskFetchOutcome.ok r →
      (∀ j, j < k → fetch (i + j) = RiskFetchOutcome.serviceUnavailable) →
      getRisksLoop fetch n i = Except.ok r := by
  intro n
  induction n with
  | zero => intro i k hk; omega
  | succ n ih =>
    intro i k hk hok hbefore
    cases k with
    | zero =>
      have h0 : fetch i = RiskFetchOutcome.ok r := by simpa using hok
      simp [getRisksLoop, h0]
    | succ k =>
      have h0 : fetch i = RiskFetchOutcome.serviceUnavailable := by
        simpa using hbefore 0 (Nat.succ_pos k)
      simp only [getRisksLoop, h0]
      apply ih (i + 1) k (Nat.lt_of_succ_lt_succ hk)
      · rwa [show i + 1 + k = i + (k + 1) by omega]
      · intro j hj
        have hh := hbefore (j + 1) (Nat.succ_lt_succ hj)
        rwa [show i + 1 + j = i + (j + 1) by omega]

/-- C8. Bounded retry surfaces failure: `get_risks` returns the result of
the first attempt that succeeds (all earlier attempts having hit the
designated service-unavailable error); and when every one of the
`max_retries` attempts hits that error, it raises `ValueError` — it never
returns an empty or default risk mapping. -/
theorem get_risks_retry (fetch : Nat → RiskFetchOutcome)
    (max_retries k : Nat) (r : Risks) :
    (k < max_retries → fetch k = RiskFetchOutcome.ok r →
        (∀ j, j < k → fetch j = RiskFetchOutcome.serviceUnavailable) →
        get_risks fetch max_retries = Except.ok r)
    ∧ ((∀ j, j < max_retries →
          fetch j = RiskFetchOutcome.serviceUnavailable) →
        get_risks fetch max_retries =
          Except.error GetRisksError.valueError) := by
  constructor
  · intro hk hok hbefore
    exact getRisksLoop_first_ok fetch r max_retries 0 k hk
      (by simpa using hok) (by intro j hj; simpa using hbefore j hj)
  · intro h
    exact getRisksLoop_all_unavailable fetch max_retries 0
      (by intro j hj; simpa using h j hj)

/-- A fetch oracle failing twice with service unavailability, then
succeeding. -/
def exRiskFetch : Nat → RiskFetchOutcome :=
  fun i => if i < 2 then RiskFetchOutcome.serviceUnavailable
    else RiskFetchOutcome.ok [("x", true)]

/-- Witness for C8 at a concrete fetch oracle (third attempt succeeds). -/
theorem get_risks_retry_witness :
    get_risks exRiskFetch 5 = Except.ok [("x", true)] :=
  (get_risks_retry exRiskFetch 5 2 [("x", true)]).1 (by decide) (by decide)
    (by decide)

/-- Request-count bound of the reliability-summary poll loop. -/
theorem reliabilityLoop_le (fetch : Nat → RawSummary) :
    ∀ remaining k,
      (reliabilityLoop fetch k remaining).2 ≤ k + remaining + 1 := by
  intro remaining
  induction remaining with
  | zero => intro k; simp [reliabilityLoop]
  | succ n ih =>
    intro k
    by_cases hy : (fetch k).risk.status = Status.YES
    · simp [reliabilityLoop, hy]
    · simp only [reliabilityLoop, hy, if_false]
      have := ih (k + 1)
      omega

/-- The reliability-summary poll loop stops right after the first request
whose risk bucket reports YES. -/
theorem reliabilityLoop_firstYes (fetch : Nat → RawSummary) :
    ∀ remaining k0 k, k0 ≤ k → k ≤ k0 + remaining →
      (∀ j, k0 ≤ j → j < k → (fetch j).risk.status ≠ Status.YES) →
      (fetch k).risk.status = Status.YES →
      (reliabilityLoop fetch k0 remaining).2 = k + 1 := by
  intro remaining
  induction remaining with
  | zero =>
    intro k0 k h1 h2 _ _
    have hk : k = k0 := by omega
    subst hk
    simp [reliabilityLoop]
  | succ n ih =>
    intro k0 k h1 h2 hbefore hyes
    by_cases hy : (fetch k0).risk.status = Status.YES
    · have hk : k = k0 := by
        by_contra hne
        have hk0 : k0 < k := by omega
        exact (hbefore k0 le_rfl hk0) hy
      subst hk
      simp [reliabilityLoop, hy]
    · have hne : k ≠ k0 := fun he => hy (he ▸ hyes)
      simp only [reliabilityLoop, hy, if_false]
      apply ih (k0 + 1) k (by omega) (by omega) ?_ hyes
      intro j hj1 hj2
      exact hbefore j (by omega) hj2

/-- C9. `get_reliability_summary` issues at most 5 requests; it stops right
after the first request whose risk bucket reports YES; a tag name belongs
to the returned set exactly when it is the name of a surviving (no
degree-of-risk qualifier) tag of the risk or attention bucket of the
final summary; and no returned tag contains the qualifier substring. -/
theorem reliability_summary_spec (fetch : Nat → RawSummary) (k : Nat) :
    ((get_reliability_summary fetch).2 ≤ 5)
    ∧ (k < 5 → (fetch k).risk.status = Status.YES →
        (∀ j, j < k → (fetch j).risk.status ≠ Status.YES) →
        (get_reliability_summary fetch).2 = k + 1)
    ∧ (∀ t, t ∈ (get_reliability_summary fetch).1 ↔
        ((∃ tg ∈ (reliabilityLoop fetch 0 4).1.risk.data,
            tagSurvives tg = true ∧ tg.tag = t)
          ∨ (∃ tg ∈ (reliabilityLoop fetch 0 4).1.attention.data,
            tagSurvives tg = true ∧ tg.tag = t)))
    ∧ (∀ t ∈ (get_reliability_summary fetch).1,
        strContains t degreeQualifier = false) := by
  have hmem : ∀ t, t ∈ (get_reliability_summary fetch).1 ↔
      ((∃ tg ∈ (reliabilityLoop fetch 0 4).1.risk.data,
          tagSurvives tg = true ∧ tg.tag = t)
        ∨ (∃ tg ∈ (reliabilityLoop fetch 0 4).1.attention.data,
          tagSurvives tg = true ∧ tg.tag = t)) := by
    intro t
    simp only [get_reliability_summary, List.mem_dedup, List.mem_append,
      List.mem_map, List.mem_filter]
    constructor
    · rintro (⟨tg, ⟨htg, hs⟩, he⟩ | ⟨tg, ⟨htg, hs⟩, he⟩)
      · exact Or.inl ⟨tg, htg, hs, he⟩
      · exact Or.inr ⟨tg, htg, hs, he⟩
    · rintro (⟨tg, htg, hs, he⟩ | ⟨tg, htg, hs, he⟩)
      · exact Or.inl ⟨tg, ⟨htg, hs⟩, he⟩
      · exact Or.inr ⟨tg, ⟨htg, hs⟩, he⟩
  refine ⟨?_, ?_, hmem, ?_⟩
  · have := reliabilityLoop_le fetch 4 0
    simpa [get_reliability_summary] using this
  · intro hk hyes hbefore
    have := reliabilityLoop_firstYes fetch 4 0 k (Nat.zero_le k)
      (by omega) (fun j _ hj => hbefore j hj) hyes
    simpa [get_reliability_summary] using this
  · intro t ht
    rcases (hmem t).mp ht with ⟨tg, _, hs, he⟩ | ⟨tg, _, hs, he⟩ <;>
    · subst he
      unfold tagSurvives at hs
      simpa using hs

/-- A summary whose risk bucket is not yet synced. -/
def exSummaryPending : RawSummary where
  risk := { status := Status.SYNC, data := [] }
  attention := { status := Status.SYNC, data := [] }
  positive := { status := Status.SYNC, data := [] }

/-- A synced summary with one plain risk tag, one qualifier-bearing risk
tag, and one attention tag. -/
def exSummarySynced : RawSummary where
  risk :=
    { status := Status.YES,
      data := [{ tag := "Налоговая задолженность", recom := none },
               { tag := "Высокая степень риска", recom := none }] }
  attention :=
    { status := Status.NO, data := [{ tag := "Суды", recom := none }] }
  positive := { status := Status.YES, data := [] }

/-- A summary oracle: pending on the first request, synced afterwards. -/
def exSummaryFetch : Nat → RawSummary :=
  fun i => if i = 0 then exSummaryPending else exSummarySynced

/-- Witness for C9: the oracle above makes the loop stop after exactly two
requests. -/
theorem reliability_summary_spec_witness :
    (get_reliability_summary exSummaryFetch).2 = 2 :=
  (reliability_summary_spec exSummaryFetch 1).2.1 (by decide) (by decide)
    (by decide)
